import Mathlib

/-!
Verification of the `resourceutil` host-metrics library.

Shallow embedding of the Go package `resourceutil` (files `cpu.go`,
`mem.go`, `storage.go`).  External effects are made explicit inputs:

* file reads (`/proc/stat`, `/proc/meminfo`, sysfs battery attributes)
  become `String` / `Except String String` parameters holding the text the
  OS would have returned;
* the `syscall.Statfs` result becomes a `Statfs` record parameter.

Numeric model: the Go code computes with `float64` over values that are
decimal integer counters read from pseudo-files.  The embedding computes
exactly in `ℚ`; this is the standard idealisation of the float arithmetic
(the spec states its numeric properties "within floating-point
tolerance").  Rational division by zero yields `0` where Go's float
division would yield `NaN`; every theorem below that touches such a case
only ever asserts *whether an error is returned*, never the numeric value
produced by a zero-denominator division.
-/

deriving instance DecidableEq for Except

/-! ## Go standard-library helpers used by the code -/

/-- One pass of `strings.Fields`: `cur` holds the characters of the field
being built, in reverse; whitespace closes the current field (if any) and
is otherwise skipped. -/
def fieldsAux : List Char → List Char → List (List Char)
  | [], cur => if cur.isEmpty then [] else [cur.reverse]
  | c :: cs, cur =>
    if c.isWhitespace then
      if cur.isEmpty then fieldsAux cs []
      else cur.reverse :: fieldsAux cs []
    else fieldsAux cs (c :: cur)

/-- `strings.Fields`: split around runs of whitespace, dropping empty
pieces.  (`Char.isWhitespace` covers the ASCII whitespace that occurs in
the pseudo-files; Go's `unicode.IsSpace` agrees on it.) -/
def goFields (s : String) : List String :=
  (fieldsAux s.toList []).map String.mk

/-- Numeric value of a digit string (most significant first), as
`strconv.Atoi` computes it on an all-digit input. -/
def digitsVal : List Char → Nat → Nat
  | [], acc => acc
  | c :: cs, acc => digitsVal cs (acc * 10 + (c.toNat - 48))

/-- Close a line piece: `cur` holds the line's characters in reverse, and
`bufio.ScanLines` drops a single trailing carriage return. -/
def closePiece (cur : List Char) : List Char :=
  match cur with
  | '\r' :: t => t.reverse
  | _ => cur.reverse

/-- `bufio.Scanner` with `ScanLines`: the file text split at newlines,
a single trailing carriage return stripped from each line.  (When the
text ends in a newline the model emits a final empty line the scanner
would not; an empty line never carries a `"cpu "` prefix, so the scan
below is unaffected.) -/
def linesAux : List Char → List Char → List (List Char)
  | [], cur => [closePiece cur]
  | c :: cs, cur =>
    if c = '\n' then closePiece cur :: linesAux cs []
    else linesAux cs (c :: cur)

/-- The lines of the file text. -/
def goLines (s : String) : List String :=
  (linesAux s.toList []).map String.mk

/-- `strings.HasPrefix(line, "cpu ")`. -/
def hasCpuStart (l : String) : Bool :=
  match l.toList with
  | 'c' :: 'p' :: 'u' :: ' ' :: _ => true
  | _ => false

/-- The integer denoted by a `/proc/stat` counter field, when the field
is a non-empty decimal digit string. -/
def parseStatFieldNat (s : String) : Option Nat :=
  match s.toList with
  | [] => none
  | cs => if cs.all Char.isDigit then some (digitsVal cs 0) else none

/-- `strconv.ParseFloat` as applied to `/proc/stat` counter fields.
The counters are non-empty decimal digit strings, on which `ParseFloat`
returns exactly the denoted integer (modelled in `ℚ`); any other string is
treated as a parse failure. -/
def parseStatField (s : String) : Option ℚ :=
  (parseStatFieldNat s).map (fun n => (n : ℚ))

/-! ## `cpu.go`: `GetCPULoad` -/

/-- The two accumulators of the field loop in `GetCPULoad`. -/
structure CPUSums where
  totalTime : ℚ
  idleTime : ℚ
deriving DecidableEq

/-- The loop `for i := 1; i < len(fields); i++` of `GetCPULoad`: parse
each field, add it to `totalTime`, and add it to `idleTime` when the index
is 4 (idle) or 5 (iowait).  `i` is the index of the head of `fields` in
the original slice (the caller starts it at 1, field 0 being the `"cpu"`
prefix). -/
def sumCPUFieldsAux (fields : List String) (i : Nat) (acc : CPUSums) :
    Except String CPUSums :=
  match fields with
  | [] => .ok acc
  | f :: rest =>
    match parseStatField f with
    | none => .error ("failed to parse CPU field " ++ toString i)
    | some v =>
      sumCPUFieldsAux rest (i + 1)
        ⟨acc.totalTime + v, acc.idleTime + (if i = 4 ∨ i = 5 then v else 0)⟩

/-- The body of `GetCPULoad` for the aggregate `cpu ` line it found:
check the field count (`len(fields) > 11 || len(fields) < 5` is an
error), sum the numeric fields, and compute
`loadPercent = 100 * (totalTime - idleTime) / totalTime`.
Note there is no guard against `totalTime == 0`: the quotient is computed
unconditionally. -/
def processCPULine (line : String) : Except String ℚ :=
  let fields := goFields line
  if fields.length > 11 ∨ fields.length < 5 then
    .error ("unexpected number of cpu fields in /proc/stat, cpu line: " ++ line)
  else
    match sumCPUFieldsAux (fields.drop 1) 1 ⟨0, 0⟩ with
    | .error e => .error e
    | .ok s => .ok (100 * (s.totalTime - s.idleTime) / s.totalTime)

/-- `GetCPULoad`, with the text of `/proc/stat` as explicit input (the
`os.Open` failure and scanner error paths are I/O effects outside the
embedding).  The code scans lines for the first one starting with
`"cpu "`, processes it and breaks; `loadPercent` keeps its zero initial
value when no line matches, and the function returns it with a nil
error. -/
def GetCPULoad (statText : String) : Except String ℚ :=
  match (goLines statText).find? hasCpuStart with
  | none => .ok 0
  | some line => processCPULine line

/-- The parsed values of a field list (0 for unparseable fields; only used
under hypotheses making every field parseable). -/
def fieldVals (fs : List String) : List ℚ :=
  fs.map (fun s => (parseStatField s).getD 0)

/-- The parsed values of a field list at the integer level. -/
def natVals (fs : List String) : List Nat :=
  fs.map (fun s => (parseStatFieldNat s).getD 0)

/-- The idle-time contribution of the values `vs`, when the head of `vs`
sits at index `i` of the original `fields` slice: the sum of the values at
indices 4 and 5. -/
def idlePick (i : Nat) (vs : List ℚ) : ℚ :=
  match vs with
  | [] => 0
  | v :: rest => (if i = 4 ∨ i = 5 then v else 0) + idlePick (i + 1) rest

/-! ## `mem.go`: `extractMemValue` and `GetMemUsage` -/

/-- Characters matched by `\s` in Go's RE2 regular expressions
(`[\t\n\f\r ]`). -/
def isGoSpace (c : Char) : Bool :=
  c = ' ' ∨ c = '\t' ∨ c = '\n' ∨ c = '\x0c' ∨ c = '\r'

/-- Drop a leading run of `\s` characters (the greedy `\s*` of the
pattern; since a digit is not a space, maximal munch is exact here). -/
def skipSpaces : List Char → List Char
  | [] => []
  | c :: cs => if isGoSpace c then skipSpaces cs else c :: cs

/-- Take the leading run of decimal digits (the greedy `(\d+)` capture
group; since the following literal `' '` is not a digit, maximal munch is
exact here).  Returns the digits and the remainder. -/
def takeDigits : List Char → List Char × List Char
  | [] => ([], [])
  | c :: cs =>
    if c.isDigit then
      let p := takeDigits cs
      (c :: p.1, p.2)
    else ([], c :: cs)

/-- Match a literal character sequence at the head of the input, returning
the remainder on success. -/
def dropLit : List Char → List Char → Option (List Char)
  | [], cs => some cs
  | _ :: _, [] => none
  | p :: ps, c :: cs => if c = p then dropLit ps cs else none

/-- Attempt the pattern `<key>:\s*(\d+) kB` at the head of `cs`,
returning the captured digits on success.  The keys used (`MemTotal`,
`MemAvailable`) contain no regex metacharacters, so the formatted pattern
matches them literally. -/
def matchMemAt (key cs : List Char) : Option (List Char) :=
  match dropLit (key ++ [':']) cs with
  | none => none
  | some rest =>
    let p := takeDigits (skipSpaces rest)
    if p.1.isEmpty then none
    else
      match dropLit [' ', 'k', 'B'] p.2 with
      | none => none
      | some _ => some p.1

/-- `regexp.FindStringSubmatch` for the pattern above: the captured group
of the leftmost match, scanning start positions left to right. -/
def findMemMatch (key cs : List Char) : Option (List Char) :=
  match cs with
  | [] => matchMemAt key []
  | _ :: rest =>
    match matchMemAt key cs with
    | some d => some d
    | none => findMemMatch key rest

/-- `strconv.Atoi` on the captured all-digit group: the only remaining
failure mode is range overflow of Go's 64-bit `int`. -/
def goAtoiDigits (digits : List Char) : Except String Nat :=
  let n := digitsVal digits 0
  if n ≤ 9223372036854775807 then .ok n else .error "value out of range"

/-- `extractMemValue`: find the key's line, parse the kB integer, and
convert to GB by dividing by `1024 * 1024`. -/
def extractMemValue (memStr key : String) : Except String ℚ :=
  match findMemMatch key.toList memStr.toList with
  | none => .error ("could not find " ++ key ++ " information in /proc/meminfo")
  | some digits =>
    match goAtoiDigits digits with
    | .error e => .error ("failed to parse " ++ key ++ " value: " ++ e)
    | .ok valuekB => .ok ((valuekB : ℚ) / (1024 * 1024))

/-- The `MemUsage` result record of `mem.go` (all fields in GB except the
percentage). -/
structure MemUsage where
  TotalGB : ℚ
  AvailableGB : ℚ
  UsedGB : ℚ
  UsedPercent : ℚ
deriving DecidableEq

/-- `GetMemUsage`, with the text of `/proc/meminfo` as explicit input (the
`readMemInfo` I/O failure path is outside the embedding): extract
`MemAvailable` then `MemTotal`, fail when the total is zero, otherwise
build the record with `usagePercent = 100 * (memTotal - memAvailable) /
memTotal`. -/
def GetMemUsage (memStr : String) : Except String MemUsage :=
  match extractMemValue memStr "MemAvailable" with
  | .error e => .error e
  | .ok memAvailable =>
    match extractMemValue memStr "MemTotal" with
    | .error e => .error e
    | .ok memTotal =>
      if memTotal = 0 then .error "divide by zero: total memory is zero"
      else
        .ok ⟨memTotal, memAvailable, memTotal - memAvailable,
             100 * (memTotal - memAvailable) / memTotal⟩

/-! ## `storage.go`: `GetDiskUsage` -/

/-- `2 ^ 64`, the modulus of Go's `uint64` arithmetic. -/
def U64 : Nat := 18446744073709551616

/-- The fields of `syscall.Statfs_t` the code reads.  `Blocks` and
`Bavail` are `uint64`; `Bsize` is an `int64` that the code casts with
`uint64(stat.Bsize)`, and is modelled as the non-negative block size the
syscall reports (so the cast is the identity). -/
structure Statfs where
  Blocks : Nat
  Bavail : Nat
  Bsize : Nat
deriving DecidableEq

/-- The `StorageUsage` result record of `storage.go`. -/
structure StorageUsage where
  TotalGB : ℚ
  FreeGB : ℚ
  UsedGB : ℚ
  UsedPercent : ℚ
deriving DecidableEq

/-- `GetDiskUsage`, with the `syscall.Statfs` outcome as explicit input
(`.error` models a failing syscall, which the code returns as-is).
All byte arithmetic is `uint64` (wrap-around mod `2 ^ 64`, including the
subtraction `total - free`); conversions to GB divide by `1024 ^ 3` and
`usedPercent = (used / total) * 100`.  There is no guard against a zero
`total`: the quotient is computed unconditionally. -/
def GetDiskUsage (statRes : Except String Statfs) : Except String StorageUsage :=
  match statRes with
  | .error e => .error e
  | .ok stat =>
    let total := stat.Blocks * stat.Bsize % U64
    let free := stat.Bavail * stat.Bsize % U64
    let used := (total + U64 - free) % U64
    .ok ⟨(total : ℚ) / (1024 * 1024 * 1024),
         (free : ℚ) / (1024 * 1024 * 1024),
         (used : ℚ) / (1024 * 1024 * 1024),
         ((used : ℚ) / (total : ℚ)) * 100⟩

/-! ## `cpu.go` (second compilation unit): `intFromFile`, `GetBatterySOH` -/

/-- Go's truncated (round-toward-zero) integer division, the semantics of
`/` on Go's `int`. -/
def goIntDiv (a b : Int) : Int := Int.tdiv a b

/-- `strings.TrimSpace`: drop leading and trailing whitespace. -/
def goTrim (cs : List Char) : List Char :=
  ((cs.dropWhile Char.isWhitespace).reverse.dropWhile Char.isWhitespace).reverse

/-- `strconv.Atoi`: an optional sign followed by at least one decimal
digit, rejected when the value overflows a 64-bit `int`. -/
def goAtoi (cs : List Char) : Except String Int :=
  let p : Int × List Char :=
    match cs with
    | '+' :: rest => (1, rest)
    | '-' :: rest => (-1, rest)
    | other => (1, other)
  if p.2.isEmpty ∨ ¬ p.2.all Char.isDigit then .error "invalid syntax"
  else
    let v : Int := p.1 * (digitsVal p.2 0 : Int)
    if v < -9223372036854775808 ∨ 9223372036854775807 < v then
      .error "value out of range"
    else .ok v

/-- `intFromFile`, with the `os.ReadFile` outcome as explicit input
(`.error` models the I/O failure): trim whitespace and parse with
`Atoi`. -/
def intFromFile (content : Except String String) : Except String Int :=
  match content with
  | .error e => .error ("failed to read int, error: " ++ e)
  | .ok data =>
    match goAtoi (goTrim data.toList) with
    | .error e => .error ("failed to parse int, error: " ++ e)
    | .ok v => .ok v

/-- `GetBatterySOH`, with the contents of the `energy_full` and
`energy_full_design` sysfs files as explicit inputs: reject an empty
battery name, read both integers, reject a zero design capacity, and
return `100 * energyFull / energyFullDesign` with Go's truncating integer
division. -/
def GetBatterySOH (batteryName : String)
    (energyFullFile energyFullDesignFile : Except String String) :
    Except String Int :=
  if batteryName = "" then .error "battery name cannot be empty"
  else
    match intFromFile energyFullFile with
    | .error e =>
      .error ("failed to retrieve energy_full for battery " ++ batteryName ++ ": " ++ e)
    | .ok energyFull =>
      match intFromFile energyFullDesignFile with
      | .error e =>
        .error ("failed to retrieve energy_full_design for battery " ++
          batteryName ++ ": " ++ e)
      | .ok energyFullDesign =>
        if energyFullDesign = 0 then
          .error ("energy_full_design is zero, cannot calculate SOH for battery " ++
            batteryName)
        else .ok (goIntDiv (100 * energyFull) energyFullDesign)

/-! ## Supporting lemmas -/

lemma fieldVals_eq_natVals (fs : List String) :
    fieldVals fs = (natVals fs).map (fun n => (n : ℚ)) := by
  induction fs with
  | nil => rfl
  | cons s rest ih =>
    simp only [fieldVals, natVals, List.map_cons] at ih ⊢
    rw [ih]
    congr 1
    simp only [parseStatField]
    cases parseStatFieldNat s <;> simp

lemma sumCPUFieldsAux_ok (fs : List String) (i : Nat) (acc : CPUSums)
    (h : ∀ s ∈ fs, (parseStatField s).isSome) :
    sumCPUFieldsAux fs i acc =
      .ok ⟨acc.totalTime + (fieldVals fs).sum,
           acc.idleTime + idlePick i (fieldVals fs)⟩ := by
  induction fs generalizing i acc with
  | nil => simp [sumCPUFieldsAux, fieldVals, idlePick]
  | cons f rest ih =>
    obtain ⟨v, hv⟩ := Option.isSome_iff_exists.mp (h f (List.mem_cons_self f rest))
    have hrest : ∀ s ∈ rest, (parseStatField s).isSome := by
      intro s hs
      exact h s (List.mem_cons_of_mem f hs)
    simp only [sumCPUFieldsAux, hv]
    rw [ih (i + 1) _ hrest]
    simp [fieldVals, idlePick, hv]
    constructor
    · ring
    · ring

lemma idlePick_of_ge (vs : List ℚ) (i : Nat) (h : 6 ≤ i) : idlePick i vs = 0 := by
  induction vs generalizing i with
  | nil => simp [idlePick]
  | cons v rest ih =>
    have h4 : ¬ (i = 4 ∨ i = 5) := by omega
    simp [idlePick, h4, ih (i + 1) (by omega)]

lemma idlePick_one (vs : List ℚ) :
    idlePick 1 vs = vs.getD 3 0 + vs.getD 4 0 := by
  match vs with
  | [] => simp [idlePick]
  | [a] => simp [idlePick]
  | [a, b] => simp [idlePick]
  | [a, b, c] => simp [idlePick]
  | [a, b, c, d] => simp [idlePick]
  | a :: b :: c :: d :: e :: rest =>
    simp [idlePick, idlePick_of_ge rest 6 (by omega)]

/-- Closed form for `processCPULine` on a well-formed aggregate line:
with numeric fields `fs` (between 4 and 10 of them, each a decimal
counter), the result is `100 * (total - idle) / total` where `total` sums
every field value and `idle` is the 4th value plus the 5th value (idle
plus iowait) - the steal field (7th value) is never added to idle. -/
lemma processCPULine_ok (line : String) (fs : List String)
    (hf : goFields line = "cpu" :: fs)
    (h4 : 4 ≤ fs.length) (h10 : fs.length ≤ 10)
    (hp : ∀ s ∈ fs, (parseStatField s).isSome) :
    processCPULine line =
      .ok (100 * ((fieldVals fs).sum -
            ((fieldVals fs).getD 3 0 + (fieldVals fs).getD 4 0)) /
          (fieldVals fs).sum) := by
  have hlen : ¬ (("cpu" :: fs).length > 11 ∨ ("cpu" :: fs).length < 5) := by
    simp only [List.length_cons]
    omega
  simp only [processCPULine, hf, if_neg hlen, List.drop_succ_cons, List.drop_zero]
  rw [sumCPUFieldsAux_ok fs 1 ⟨0, 0⟩ hp]
  simp [idlePick_one]

/-! ## Claims about `GetCPULoad` -/

/-- C2: every CPU load value `GetCPULoad` computes from the aggregate
`cpu ` line (here: any stat text whose first such line carries numeric
fields `fs`, between 4 and 10 of them) equals
`100 * (total - idle) / total`, where `idle` is exactly the idle-time
field (position 4) plus the IO-wait field (position 5) - steal (position
8) is never included - and `total` sums all numeric fields present.
The code computes these quantities from the single cumulative counter
snapshot it reads (the spec's `totalDiff`/`idleDiff` against a zero
baseline). -/
theorem getCPULoad_formula (statText line : String) (fs : List String)
    (hline : (goLines statText).find? hasCpuStart = some line)
    (hf : goFields line = "cpu" :: fs)
    (h4 : 4 ≤ fs.length) (h10 : fs.length ≤ 10)
    (hp : ∀ s ∈ fs, (parseStatField s).isSome) :
    GetCPULoad statText =
      .ok (100 * ((fieldVals fs).sum -
          ((fieldVals fs).getD 3 0 + (fieldVals fs).getD 4 0)) /
        (fieldVals fs).sum) := by
  simp only [GetCPULoad, hline]
  exact processCPULine_ok line fs hf h4 h10 hp

/-- Witness for C2, the spec's own concrete scenario: the line
`cpu  100 0 100 700 100 0 0 0 0 0` has total 1000 and idle 700 + 100, so
the load is `100 * (1000 - 800) / 1000 = 20`. -/
theorem getCPULoad_formula_witness :
    GetCPULoad "cpu  100 0 100 700 100 0 0 0 0 0\n" = .ok 20 := by
  have h := getCPULoad_formula "cpu  100 0 100 700 100 0 0 0 0 0\n"
    "cpu  100 0 100 700 100 0 0 0 0 0"
    ["100", "0", "100", "700", "100", "0", "0", "0", "0", "0"]
    (by decide) (by decide) (by decide) (by decide) (by decide)
  have hnv : natVals ["100", "0", "100", "700", "100", "0", "0", "0", "0", "0"] =
      [100, 0, 100, 700, 100, 0, 0, 0, 0, 0] := by decide
  rw [h, fieldVals_eq_natVals, hnv]
  norm_num

/-- C7: when the first aggregate `cpu ` line carries fewer than 4 or more
than 10 numeric fields after the `cpu` prefix, `GetCPULoad` returns the
field-count parse error (the function is total, so it never panics). -/
theorem getCPULoad_field_count_error (statText line : String) (fs : List String)
    (hline : (goLines statText).find? hasCpuStart = some line)
    (hf : goFields line = "cpu" :: fs)
    (hn : fs.length < 4 ∨ 10 < fs.length) :
    GetCPULoad statText =
      .error ("unexpected number of cpu fields in /proc/stat, cpu line: " ++ line) := by
  have hlen : ("cpu" :: fs).length > 11 ∨ ("cpu" :: fs).length < 5 := by
    simp only [List.length_cons]
    omega
  simp only [GetCPULoad, hline, processCPULine, hf, if_pos hlen]

/-- Witness for C7, the spec's own concrete scenario: a cpu line with
only 2 fields yields the parse error. -/
theorem getCPULoad_field_count_error_witness :
    GetCPULoad "cpu  1 2\n" =
      .error "unexpected number of cpu fields in /proc/stat, cpu line: cpu  1 2" := by
  have h := getCPULoad_field_count_error "cpu  1 2\n" "cpu  1 2" ["1", "2"]
    (by decide) (by decide) (by decide)
  rw [h]
  decide

/-- C10: when no line of the stat text begins with `"cpu "`, `GetCPULoad`
returns load 0 with a nil error: `loadPercent` keeps its zero initial
value and the missing aggregate line is not reported as a failure. -/
theorem getCPULoad_no_cpu_line (statText : String)
    (h : (goLines statText).find? hasCpuStart = none) :
    GetCPULoad statText = .ok 0 := by
  simp only [GetCPULoad, h]

/-- Witness for C10: a stat text with no aggregate cpu line at all. -/
theorem getCPULoad_no_cpu_line_witness :
    GetCPULoad "intr 5\nctxt 9\n" = .ok 0 :=
  getCPULoad_no_cpu_line "intr 5\nctxt 9\n" (by decide)

/-- C1 is refuted by this concrete run: the code has no sampler state, no
start operation, and no "not started" error - `GetCPULoad` is a pure
function of the stat text.  This call, made with no start transition
having ever occurred (none exists in the code), returns a load value with
a nil error instead of failing. -/
theorem getCPULoad_not_started_counterexample :
    GetCPULoad "cpu  4 4 4 4\n" = .ok 75 := by
  have h := processCPULine_ok "cpu  4 4 4 4" ["4", "4", "4", "4"]
    (by decide) (by decide) (by decide) (by decide)
  have hline : (goLines "cpu  4 4 4 4\n").find? hasCpuStart = some "cpu  4 4 4 4" := by
    decide
  have hnv : natVals ["4", "4", "4", "4"] = [4, 4, 4, 4] := by decide
  simp only [GetCPULoad, hline]
  rw [h, fieldVals_eq_natVals, hnv]
  norm_num

/-- C1 (amended): `GetCPULoad` has no started-state precondition: on any
stat text whose first aggregate cpu line is well formed it returns a load
value with a nil error, without any start call - the sampling-loop state
machine of the spec does not exist in this code. -/
theorem getCPULoad_no_start_required (statText line : String) (fs : List String)
    (hline : (goLines statText).find? hasCpuStart = some line)
    (hf : goFields line = "cpu" :: fs)
    (h4 : 4 ≤ fs.length) (h10 : fs.length ≤ 10)
    (hp : ∀ s ∈ fs, (parseStatField s).isSome) :
    (GetCPULoad statText).isOk = true := by
  simp only [GetCPULoad, hline]
  rw [processCPULine_ok line fs hf h4 h10 hp]
  rfl

/-- Witness for the amended C1. -/
theorem getCPULoad_no_start_required_witness :
    (GetCPULoad "cpu 1 2 3 4 5\n").isOk = true :=
  getCPULoad_no_start_required "cpu 1 2 3 4 5\n" "cpu 1 2 3 4 5"
    ["1", "2", "3", "4", "5"] (by decide) (by decide) (by decide) (by decide)
    (by decide)

/-- C3 is refuted by this concrete run: on a cpu line whose counters are
all zero the total time (the division's denominator) is zero, yet the
code returns successfully instead of failing - it has no zero-total
guard.  (In Go the unguarded float division produces `NaN` with a nil
error; the theorem only asserts the absence of an error.) -/
theorem getCPULoad_zero_total_counterexample :
    (GetCPULoad "cpu 0 0 0 0\n").isOk = true := by decide

/-- C3 (amended): `GetCPULoad` does not guard the division against a zero
total: on any stat text whose first aggregate cpu line is well formed
with all counters zero (so the denominator `totalTime` is zero), it
still returns with a nil error, the unguarded quotient being computed
anyway. -/
theorem getCPULoad_zero_total_unguarded (statText line : String) (fs : List String)
    (hline : (goLines statText).find? hasCpuStart = some line)
    (hf : goFields line = "cpu" :: fs)
    (h4 : 4 ≤ fs.length) (h10 : fs.length ≤ 10)
    (hz : ∀ s ∈ fs, parseStatFieldNat s = some 0) :
    (GetCPULoad statText).isOk = true := by
  have hp : ∀ s ∈ fs, (parseStatField s).isSome := by
    intro s hs
    simp [parseStatField, hz s hs]
  simp only [GetCPULoad, hline]
  rw [processCPULine_ok line fs hf h4 h10 hp]
  rfl

/-- Witness for the amended C3. -/
theorem getCPULoad_zero_total_unguarded_witness :
    (GetCPULoad "cpu  0 0 0 0 0\n").isOk = true :=
  getCPULoad_zero_total_unguarded "cpu  0 0 0 0 0\n" "cpu  0 0 0 0 0"
    ["0", "0", "0", "0", "0"] (by decide) (by decide) (by decide) (by decide)
    (by decide)

/-! ## Claims about `GetMemUsage` -/

lemma extractMemValue_ok (memStr key : String) (ds : List Char) (V : Nat)
    (hfind : findMemMatch key.toList memStr.toList = some ds)
    (hval : digitsVal ds 0 = V) (hrange : V ≤ 9223372036854775807) :
    extractMemValue memStr key = .ok ((V : ℚ) / (1024 * 1024)) := by
  simp only [extractMemValue, hfind, goAtoiDigits, hval, if_pos hrange]

/-- C5: on memory text containing `MemTotal: T kB` and
`MemAvailable: A kB` (formalised: the pattern search finds digit groups
denoting `T` and `A`) with `T > 0`, `GetMemUsage` succeeds with
`usedGB = (T - A) / 1024 ^ 2` and `usedPercent = 100 * (T - A) / T`,
computed exactly in `ℚ` (the float computation agrees within
floating-point tolerance). -/
theorem getMemUsage_formula (memStr : String) (dT dA : List Char) (T A : Nat)
    (hfT : findMemMatch "MemTotal".toList memStr.toList = some dT)
    (hfA : findMemMatch "MemAvailable".toList memStr.toList = some dA)
    (hvT : digitsVal dT 0 = T) (hvA : digitsVal dA 0 = A)
    (hrT : T ≤ 9223372036854775807) (hrA : A ≤ 9223372036854775807)
    (hTpos : 0 < T) :
    GetMemUsage memStr =
      .ok ⟨(T : ℚ) / (1024 * 1024), (A : ℚ) / (1024 * 1024),
        ((T : ℚ) - (A : ℚ)) / (1024 * 1024),
        100 * ((T : ℚ) - (A : ℚ)) / (T : ℚ)⟩ := by
  have hT := extractMemValue_ok memStr "MemTotal" dT T hfT hvT hrT
  have hA := extractMemValue_ok memStr "MemAvailable" dA A hfA hvA hrA
  have hTQ : (T : ℚ) ≠ 0 := Nat.cast_ne_zero.mpr (by omega)
  have hTne : ((T : ℚ) / (1024 * 1024)) ≠ 0 := div_ne_zero hTQ (by norm_num)
  simp only [GetMemUsage, hA, hT, if_neg hTne]
  have h3 : ((T : ℚ) / (1024 * 1024)) - ((A : ℚ) / (1024 * 1024)) =
      ((T : ℚ) - (A : ℚ)) / (1024 * 1024) := (sub_div _ _ _).symm
  rw [h3]
  have h4 : 100 * (((T : ℚ) - (A : ℚ)) / (1024 * 1024)) / ((T : ℚ) / (1024 * 1024)) =
      100 * ((T : ℚ) - (A : ℚ)) / (T : ℚ) := by
    field_simp
  rw [h4]

/-- Witness for C5, the spec's own concrete scenario:
`MemTotal: 8000000 kB` and `MemAvailable: 2000000 kB` give
`usedPercent = 75`. -/
theorem getMemUsage_formula_witness :
    (GetMemUsage "MemTotal: 8000000 kB\nMemAvailable: 2000000 kB\n").map
      (fun u => u.UsedPercent) = .ok 75 := by
  have h := getMemUsage_formula "MemTotal: 8000000 kB\nMemAvailable: 2000000 kB\n"
    ['8', '0', '0', '0', '0', '0', '0'] ['2', '0', '0', '0', '0', '0', '0']
    8000000 2000000 (by decide) (by decide) (by decide) (by decide) (by decide)
    (by decide) (by decide)
  rw [h]
  simp only [Except.map, Except.ok.injEq]
  norm_num

/-- C9: `GetMemUsage` returns an error, never a `MemUsage` result, on any
memory text where the `MemTotal` pattern is absent or its value is
zero. -/
theorem getMemUsage_total_absent_or_zero (memStr : String)
    (h : findMemMatch "MemTotal".toList memStr.toList = none ∨
      extractMemValue memStr "MemTotal" = .ok 0) :
    (GetMemUsage memStr).isOk = false := by
  cases hA : extractMemValue memStr "MemAvailable" with
  | error e => simp [GetMemUsage, hA, Except.isOk, Except.toBool]
  | ok a =>
    cases h with
    | inl habs =>
      have hTerr : extractMemValue memStr "MemTotal" =
          .error ("could not find " ++ "MemTotal" ++ " information in /proc/meminfo") := by
        simp only [extractMemValue, habs]
      simp [GetMemUsage, hA, hTerr, Except.isOk, Except.toBool]
    | inr hzero => simp [GetMemUsage, hA, hzero, Except.isOk, Except.toBool]

/-- Witness for C9: text carrying no `MemTotal` line. -/
theorem getMemUsage_total_absent_or_zero_witness :
    (GetMemUsage "MemFree: 5 kB\n").isOk = false :=
  getMemUsage_total_absent_or_zero "MemFree: 5 kB\n" (Or.inl (by decide))

/-! ## Claims about `GetDiskUsage` -/

/-- C8: for filesystem statistics with a positive total (and the sanity
conditions real statistics satisfy: the byte total fits in `uint64` and
the non-privileged available blocks do not exceed the total blocks), the
returned record satisfies `usedGB = totalGB - freeGB`, and
`usedPercent + freePercent = 100` where `freePercent` is the derived
quantity `100 * free / total` (not independently stored). -/
theorem getDiskUsage_relations (stat : Statfs)
    (hpos : 0 < stat.Blocks * stat.Bsize)
    (hov : stat.Blocks * stat.Bsize < U64)
    (hav : stat.Bavail ≤ stat.Blocks) :
    (GetDiskUsage (.ok stat)).map (fun u => u.UsedGB) =
      (GetDiskUsage (.ok stat)).map (fun u => u.TotalGB - u.FreeGB) ∧
    (GetDiskUsage (.ok stat)).map (fun u => u.UsedPercent +
        100 * (((stat.Bavail * stat.Bsize : Nat) : ℚ) /
          ((stat.Blocks * stat.Bsize : Nat) : ℚ))) = .ok 100 := by
  have hFT : stat.Bavail * stat.Bsize ≤ stat.Blocks * stat.Bsize :=
    Nat.mul_le_mul_right _ hav
  have htot : stat.Blocks * stat.Bsize % U64 = stat.Blocks * stat.Bsize :=
    Nat.mod_eq_of_lt hov
  have hfree : stat.Bavail * stat.Bsize % U64 = stat.Bavail * stat.Bsize :=
    Nat.mod_eq_of_lt (lt_of_le_of_lt hFT hov)
  have hused : (stat.Blocks * stat.Bsize + U64 -
      stat.Bavail * stat.Bsize) % U64 =
      stat.Blocks * stat.Bsize - stat.Bavail * stat.Bsize := by
    simp only [U64] at hov hFT ⊢
    omega
  have hTQ : ((stat.Blocks * stat.Bsize : Nat) : ℚ) ≠ 0 :=
    Nat.cast_ne_zero.mpr (by omega)
  simp only [GetDiskUsage, Except.map, hused, htot, hfree, Except.ok.injEq]
  have hB : 0 < stat.Blocks := by
    rcases Nat.eq_zero_or_pos stat.Blocks with h0 | h0
    · rw [h0] at hpos
      simp at hpos
    · exact h0
  have hS : 0 < stat.Bsize := by
    rcases Nat.eq_zero_or_pos stat.Bsize with h0 | h0
    · rw [h0] at hpos
      simp at hpos
    · exact h0
  have hBQ : ((stat.Blocks : ℚ)) ≠ 0 := Nat.cast_ne_zero.mpr (by omega)
  have hSQ : ((stat.Bsize : ℚ)) ≠ 0 := Nat.cast_ne_zero.mpr (by omega)
  constructor
  · rw [Nat.cast_sub hFT, sub_div]
  · rw [Nat.cast_sub hFT]
    push_cast
    field_simp
    ring

/-- Witness for C8 at blocks 1000, available blocks 400, block size
4096: `usedPercent = 60` and `freePercent = 40`. -/
theorem getDiskUsage_relations_witness :
    (GetDiskUsage (.ok ⟨1000, 400, 4096⟩)).map (fun u => u.UsedGB) =
      (GetDiskUsage (.ok ⟨1000, 400, 4096⟩)).map (fun u => u.TotalGB - u.FreeGB) ∧
    (GetDiskUsage (.ok ⟨1000, 400, 4096⟩)).map (fun u => u.UsedPercent +
        100 * (((400 * 4096 : Nat) : ℚ) / ((1000 * 4096 : Nat) : ℚ))) = .ok 100 :=
  getDiskUsage_relations ⟨1000, 400, 4096⟩ (by decide) (by decide) (by decide)

/-- C4 is refuted by this concrete run: with filesystem statistics
reporting zero blocks, `GetDiskUsage` returns a `StorageUsage` result
with a nil error instead of surfacing a zero-divisor error - the code has
no zero-total guard.  (In Go the unguarded `0 / 0` float division makes
`usedPercent` `NaN`, still with a nil error; the theorem only asserts the
absence of an error.) -/
theorem getDiskUsage_zero_total_counterexample :
    (GetDiskUsage (.ok ⟨0, 0, 4096⟩)).isOk = true := by decide

/-- C4 (amended): `GetDiskUsage` performs no zero-divisor check: whenever
the statistics query itself succeeds - in particular with zero total
blocks - it returns a `StorageUsage` result with a nil error, the
unguarded quotient being computed anyway. -/
theorem getDiskUsage_zero_total_unguarded (stat : Statfs)
    (_hz : stat.Blocks = 0) :
    (GetDiskUsage (.ok stat)).isOk = true := rfl

/-- Witness for the amended C4. -/
theorem getDiskUsage_zero_total_unguarded_witness :
    (GetDiskUsage (.ok ⟨0, 7, 512⟩)).isOk = true :=
  getDiskUsage_zero_total_unguarded ⟨0, 7, 512⟩ rfl

/-! ## Claim about `GetBatterySOH` -/

/-- C6: for a non-empty battery name and successfully read energies,
`GetBatterySOH` fails when the parsed `energy_full_design` is zero, and
otherwise returns `100 * energyFull / energyFullDesign` computed with
Go's truncating integer division - which, for the non-negative values
battery sysfs attributes hold, is exactly
`floor(100 * energyFull / energyFullDesign)`. -/
theorem getBatterySOH_spec (batteryName : String)
    (fullFile designFile : Except String String) (f d : Int)
    (hname : batteryName ≠ "")
    (hf : intFromFile fullFile = .ok f)
    (hd : intFromFile designFile = .ok d) :
    (d = 0 → (GetBatterySOH batteryName fullFile designFile).isOk = false) ∧
    (d ≠ 0 → GetBatterySOH batteryName fullFile designFile =
      .ok (goIntDiv (100 * f) d)) ∧
    (0 ≤ f → 0 < d → goIntDiv (100 * f) d = ⌊(100 * (f : ℚ)) / (d : ℚ)⌋) := by
  refine ⟨?_, ?_, ?_⟩
  · intro h0
    simp [GetBatterySOH, hname, hf, hd, h0, Except.isOk, Except.toBool]
  · intro hne
    simp [GetBatterySOH, hname, hf, hd, hne]
  · intro hfnn hdpos
    have h1 : goIntDiv (100 * f) d = (100 * f) / d :=
      Int.tdiv_eq_ediv (by positivity) (le_of_lt hdpos)
    lift d to ℕ using le_of_lt hdpos with n
    rw [h1, show (100 * (f : ℚ)) = (((100 * f : ℤ)) : ℚ) by push_cast; ring,
      show (((n : ℤ)) : ℚ) = ((n : ℕ) : ℚ) by push_cast; rfl,
      Rat.floor_intCast_div_natCast]

/-- Witness for C6: `energy_full` 49000000 and `energy_full_design`
56000000 give `SOH = floor(87.5) = 87`. -/
theorem getBatterySOH_spec_witness :
    GetBatterySOH "BAT0" (.ok "49000000\n") (.ok "56000000") = .ok 87 := by
  have h := (getBatterySOH_spec "BAT0" (.ok "49000000\n") (.ok "56000000")
    49000000 56000000 (by decide) (by decide) (by decide)).2.1 (by decide)
  rw [h]
  decide
